import Mathlib

/-!
Verification of the CMOS/RTC kernel module (`src/mod.rs`, `src/rtc.rs`).

The development shallowly embeds the module's algorithmic core:
the calendar arithmetic (`is_leap_year`, `leap_years_between`,
`get_days_since_epoch`), the register-decode path of `CMOSClock::init`
(BCD normalization, 12/24-hour conversion, century combination and the
epoch computation), the lazy clock source (`CMOSClock::get_time`), the
RTC interrupt callback with its tick counter, and the module
lifecycle (`init_`, `fini`, `rtc::init`, `rtc::fini`).

Machine integers are embedded as `Nat`.  Where a Rust `u32` operation
can actually wrap or underflow on the reachable domain, the wrap is
made explicit through `wadd32`/`wsub32`/`wmul32` (release-mode wrapping
semantics); a parallel `Option`-valued embedding (`cmosDecodeChecked`)
models checked (debug-mode) arithmetic, returning `none` exactly where
an overflow or underflow would trap.  Hardware register reads are 8-bit,
captured by the `RawTime.Bytes` hypothesis.
-/

namespace CMOS

/-- Port used to select the CMOS register to read (`SELECT_PORT`, src/mod.rs). -/
def SELECT_PORT : Nat := 0x70

/-- Port used to read a previously selected CMOS register (`VALUE_PORT`, src/mod.rs). -/
def VALUE_PORT : Nat := 0x71

/-- Status register B index (`STATUS_B_REGISTER`, src/mod.rs). -/
def STATUS_B_REGISTER : Nat := 0x0b

/-- Status register C index (`STATUS_C_REGISTER`, src/mod.rs). -/
def STATUS_C_REGISTER : Nat := 0x0c

/-- Bit of status register B telling whether the 24 hour format is set
(`FORMAT_24_FLAG`, src/mod.rs). -/
def FORMAT_24_FLAG : Nat := 1 <<< 1

/-- Bit of status register B telling whether binary mode is set
(`FORMAT_BCD_FLAG`, src/mod.rs). -/
def FORMAT_BCD_FLAG : Nat := 1 <<< 2

/-- `is_leap_year` (src/mod.rs): a year is a leap year iff divisible by 4 and
(not divisible by 100, or divisible by 400). -/
def is_leap_year (year : Nat) : Bool :=
  if year % 4 != 0 then
    false
  else if year % 100 != 0 then
    true
  else
    year % 400 == 0

/-- `leap_years_between` (src/mod.rs): the number of leap years in the
half-open range `[y0, y1)` (the Rust code counts over `Range<u32>`). -/
def leap_years_between (y0 y1 : Nat) : Nat :=
  ((List.range' y0 (y1 - y0)).filter (fun year => is_leap_year year)).length

/-- `get_days_since_epoch` (src/mod.rs): days since 1970-01-01 for a
zero-based `month` and `day`.  Faithful on the module's reachable domain
(`1970 ≤ year`), where no `u32` operation wraps. -/
def get_days_since_epoch (year month day : Nat) : Nat :=
  let year_days := (year - 1970) * 365 + leap_years_between 1970 year
  let month_days := ((month + 1) / 2) * 31 + (month / 2) * 30
  let month_days := if is_leap_year year ∧ 2 ≤ month then month_days + 1 else month_days
  year_days + month_days + day

/-! ## Wrapping 32-bit arithmetic (release-mode `u32` semantics) -/

/-- One more than the largest `u32` value. -/
def U32 : Nat := 2 ^ 32

/-- Wrapping `u32` addition. -/
def wadd32 (a b : Nat) : Nat := (a + b) % U32

/-- Wrapping `u32` subtraction (two's complement wrap for `a, b < 2^32`). -/
def wsub32 (a b : Nat) : Nat := (a + U32 - b) % U32

/-- Wrapping `u32` multiplication. -/
def wmul32 (a b : Nat) : Nat := (a * b) % U32

/-- `get_days_since_epoch` under wrapping `u32` semantics, as executed by
`CMOSClock::init` on arbitrary (possibly wrapped) arguments.  On the
in-bounds domain it agrees with `get_days_since_epoch` (proved below). -/
def get_days_since_epoch_u32 (year month day : Nat) : Nat :=
  let year_days := wadd32 (wmul32 (wsub32 year 1970) 365) (leap_years_between 1970 year)
  let month_days := wadd32 (wmul32 (wadd32 month 1 / 2) 31) (wmul32 (month / 2) 30)
  let month_days := if is_leap_year year ∧ 2 ≤ month then wadd32 month_days 1 else month_days
  wadd32 (wadd32 year_days month_days) day

/-! ## The register-decode path of `CMOSClock::init` -/

/-- One raw register snapshot: the seven time/date registers plus status
register B, as read by `CMOSClock::init`.  Every field is an 8-bit read. -/
structure RawTime where
  second : Nat
  minute : Nat
  hour : Nat
  day : Nat
  month : Nat
  year : Nat
  century : Nat
  status_b : Nat

/-- All registers of a snapshot are 8-bit quantities. -/
def RawTime.Bytes (r : RawTime) : Prop :=
  r.second < 256 ∧ r.minute < 256 ∧ r.hour < 256 ∧ r.day < 256 ∧
    r.month < 256 ∧ r.year < 256 ∧ r.century < 256 ∧ r.status_b < 256

instance (r : RawTime) : Decidable r.Bytes := by
  unfold RawTime.Bytes; infer_instance

/-- The fieldwise BCD-to-binary conversion of `CMOSClock::init`
(`value = (value & 0x0f) + (value / 16) * 10`). -/
def bcd_decode (value : Nat) : Nat := (value &&& 0x0f) + (value / 16) * 10

/-- The hour's BCD conversion in `CMOSClock::init`, preserving the `0x80`
PM bit: `hour = ((hour & 0x0f) + ((hour & 0x70) / 16) * 10) | (hour & 0x80)`. -/
def bcdHour (hour : Nat) : Nat :=
  ((hour &&& 0x0f) + ((hour &&& 0x70) / 16) * 10) ||| (hour &&& 0x80)

/-- The 12-to-24-hour conversion in `CMOSClock::init`: when the 24-hour
format flag is clear and the PM bit is set,
`hour = ((hour & 0x7f) + 12) % 24`. -/
def hour24 (status_b hour : Nat) : Nat :=
  if status_b &&& FORMAT_24_FLAG = 0 ∧ hour &&& 0x80 ≠ 0 then
    ((hour &&& 0x7f) + 12) % 24
  else hour

/-- The field-normalization portion of `CMOSClock::init` (src/mod.rs):
century defaulting, BCD-to-binary conversion (with the hour keeping its
`0x80` PM bit), 12-to-24-hour conversion, and the century combination
`year + century * 100`.  Returns `(second, minute, hour, day, month, year)`
with `day` and `month` still one-based (the decrements happen in
`cmosDecode`).  On 8-bit register reads none of these `u32` operations can
wrap, so plain `Nat` arithmetic is exact here. -/
def cmosDecodeFields (century_register : Bool) (r : RawTime) :
    Nat × Nat × Nat × Nat × Nat × Nat :=
  let century := if century_register then r.century else 20
  let (second, minute, hour, day, month, year, century) :=
    if r.status_b &&& FORMAT_BCD_FLAG = 0 then
      (bcd_decode r.second, bcd_decode r.minute, bcdHour r.hour,
        bcd_decode r.day, bcd_decode r.month, bcd_decode r.year,
        if century_register then bcd_decode century else century)
    else
      (r.second, r.minute, r.hour, r.day, r.month, r.year, century)
  (second, minute, hour24 r.status_b hour, day, month, year + century * 100)

/-- The timestamp computed by `CMOSClock::init` (src/mod.rs): decode the
fields, decrement `day` and `month` to zero-based, compute the day count and
scale to seconds.  The decrements and the whole day computation are `u32`
operations (wrapping semantics); only then is the product widened to `u64`
and the sub-day terms added (those `u64` additions cannot wrap). -/
def cmosDecode (century_register : Bool) (r : RawTime) : Nat :=
  let (second, minute, hour, day, month, year) := cmosDecodeFields century_register r
  let day := wsub32 day 1
  let month := wsub32 month 1
  let days_since_epoch := get_days_since_epoch_u32 year month day
  wmul32 days_since_epoch 86400 + hour * 3600 + minute * 60 + second

/-! ## Checked (debug-mode) arithmetic for the same decode path

Rust debug builds trap on arithmetic overflow and underflow.  The
`Option`-valued embedding below mirrors `CMOSClock::init` operation by
operation, returning `none` exactly where a checked `u32` (or final `u64`)
operation would trap. -/

/-- Checked `u32` subtraction: `none` on underflow. -/
def csub32 (a b : Nat) : Option Nat := if b ≤ a then some (a - b) else none

/-- Checked `u32` addition: `none` on overflow. -/
def cadd32 (a b : Nat) : Option Nat := if a + b < U32 then some (a + b) else none

/-- Checked `u32` multiplication: `none` on overflow. -/
def cmul32 (a b : Nat) : Option Nat := if a * b < U32 then some (a * b) else none

/-- Checked `u64` addition: `none` on overflow. -/
def cadd64 (a b : Nat) : Option Nat := if a + b < 2 ^ 64 then some (a + b) else none

/-- Checked counterpart of `bcd_decode`. -/
def bcd_decode_checked (value : Nat) : Option Nat := do
  let t ← cmul32 (value / 16) 10
  cadd32 (value &&& 0x0f) t

/-- Checked counterpart of `bcdHour`. -/
def bcdHourChecked (hour : Nat) : Option Nat := do
  let t1 ← cmul32 ((hour &&& 0x70) / 16) 10
  let t2 ← cadd32 (hour &&& 0x0f) t1
  pure (t2 ||| (hour &&& 0x80))

/-- Checked counterpart of `hour24`. -/
def hour24Checked (status_b hour : Nat) : Option Nat :=
  if status_b &&& FORMAT_24_FLAG = 0 ∧ hour &&& 0x80 ≠ 0 then do
    let t ← cadd32 (hour &&& 0x7f) 12
    pure (t % 24)
  else pure hour

/-- Checked counterpart of `cmosDecodeFields`. -/
def cmosFieldsChecked (century_register : Bool) (r : RawTime) :
    Option (Nat × Nat × Nat × Nat × Nat × Nat) := do
  let century := if century_register then r.century else 20
  let (second, minute, hour, day, month, year, century) ←
    if r.status_b &&& FORMAT_BCD_FLAG = 0 then do
      let s ← bcd_decode_checked r.second
      let mi ← bcd_decode_checked r.minute
      let h ← bcdHourChecked r.hour
      let d ← bcd_decode_checked r.day
      let mo ← bcd_decode_checked r.month
      let y ← bcd_decode_checked r.year
      let c ← if century_register then bcd_decode_checked century else pure century
      pure (s, mi, h, d, mo, y, c)
    else
      pure (r.second, r.minute, r.hour, r.day, r.month, r.year, century)
  let hour ← hour24Checked r.status_b hour
  let yc ← cmul32 century 100
  let year ← cadd32 year yc
  pure (second, minute, hour, day, month, year)

/-- Checked counterpart of `get_days_since_epoch`. -/
def get_days_since_epoch_checked (year month day : Nat) : Option Nat := do
  let yd ← csub32 year 1970
  let yd ← cmul32 yd 365
  let year_days ← cadd32 yd (leap_years_between 1970 year)
  let m1 ← cadd32 month 1
  let md1 ← cmul32 (m1 / 2) 31
  let md2 ← cmul32 (month / 2) 30
  let month_days ← cadd32 md1 md2
  let month_days ←
    if is_leap_year year ∧ 2 ≤ month then cadd32 month_days 1 else pure month_days
  let t ← cadd32 year_days month_days
  cadd32 t day

/-- Checked counterpart of `cmosDecode`: the whole decode path of
`CMOSClock::init` under debug-mode (trapping) arithmetic. -/
def cmosDecodeChecked (century_register : Bool) (r : RawTime) : Option Nat := do
  let (second, minute, hour, day, month, year) ← cmosFieldsChecked century_register r
  let day ← csub32 day 1
  let month ← csub32 month 1
  let days_since_epoch ← get_days_since_epoch_checked year month day
  let secs ← cmul32 days_since_epoch 86400
  let hs ← cmul32 hour 3600
  let ms ← cmul32 minute 60
  let a ← cadd64 secs hs
  let b ← cadd64 a ms
  cadd64 b second

/-! ## The lazy clock source (`CMOSClock`)

The hardware is modelled as a stream of register snapshots together with a
count of snapshot reads, so that a hypothetical second hardware read would
observe different data. -/

/-- `CMOSClock` (src/mod.rs): the century-register flag fixed at
construction, and the lazily cached timestamp. -/
structure CMOSClock where
  century_register : Bool
  timestamp : Option Nat

/-- `CMOSClock::new` (src/mod.rs). -/
def CMOSClock.new (century_register : Bool) : CMOSClock :=
  ⟨century_register, none⟩

/-- `CMOSClock::get_name` (src/mod.rs): the registered clock-source name. -/
def CMOSClock.get_name (_ : CMOSClock) : String := "cmos"

/-- The hardware environment of the clock: the register snapshot observed by
the `n`-th hardware read, and how many reads happened so far. -/
structure HwWorld where
  snapshot : Nat → RawTime
  reads : Nat

/-- `CMOSClock::init` (src/mod.rs): if the cache is already populated, do
nothing; otherwise perform one hardware read (consuming the next snapshot)
and populate the cache with the decoded timestamp. -/
def CMOSClock.init (c : CMOSClock) (w : HwWorld) : CMOSClock × HwWorld :=
  if c.timestamp.isSome then (c, w)
  else
    ({ c with timestamp := some (cmosDecode c.century_register (w.snapshot w.reads)) },
      { w with reads := w.reads + 1 })

/-- Timestamp scales of the external kernel interface. -/
inductive TimestampScale where
  | Second
  | Millisecond
  | Microsecond
  | Nanosecond
deriving DecidableEq

/-- Modelled from the spec: units per second of each scale of the external
`TimestampScale` type (the kernel crate is outside this repository). -/
def TimestampScale.unitsPerSecond : TimestampScale → Nat
  | .Second => 1
  | .Millisecond => 1000
  | .Microsecond => 1000000
  | .Nanosecond => 1000000000

/-- Modelled from the spec: `TimestampScale::convert` of the external kernel
crate is a "pure linear rescale (e.g., seconds→milliseconds multiplies by
1000)". -/
def TimestampScale.convert (ts : Nat) (src dst : TimestampScale) : Nat :=
  ts * dst.unitsPerSecond / src.unitsPerSecond

/-- `CMOSClock::get_time` (src/mod.rs): populate the cache if empty, then
rescale the cached seconds-since-epoch to the requested scale. -/
def CMOSClock.get_time (c : CMOSClock) (scale : TimestampScale) (w : HwWorld) :
    Nat × CMOSClock × HwWorld :=
  let p := if c.timestamp.isNone then c.init w else (c, w)
  (TimestampScale.convert (p.1.timestamp.getD 0) TimestampScale.Second scale, p)

/-- A sequence of `get_time` calls at the given scales, threading the clock
and hardware state. -/
def get_time_seq (c : CMOSClock) (w : HwWorld) :
    List TimestampScale → List Nat × CMOSClock × HwWorld
  | [] => ([], c, w)
  | scale :: rest =>
    let (v, c, w) := c.get_time scale w
    let (vs, c, w) := get_time_seq c w rest
    (v :: vs, c, w)

/-! ## The RTC interrupt callback (src/rtc.rs) -/

/-- A port-level I/O operation, used to record the callback's I/O trace. -/
inductive IOOp where
  | outb (port value : Nat)
  | inb (port : Nat)
deriving DecidableEq

/-- The I/O trace of `reset` (src/rtc.rs): select status register C on the
select port, then read the value port, acknowledging the interrupt. -/
def reset_trace : List IOOp :=
  [IOOp.outb SELECT_PORT STATUS_C_REGISTER, IOOp.inb VALUE_PORT]

/-- State touched by the RTC interrupt callback: the `COUNTER` static
(a `usize`) and the shared fine-grained millisecond timestamp the module is
meant to advance. -/
structure RtcState where
  counter : Nat
  ms : Nat

/-- The interrupt callback registered by `rtc::init` (src/rtc.rs): increment
the local counter, reset it to zero when it reaches 8, store it back, then
call `reset` and resume.  The source contains only the comment
`// TODO Incremenet 1ms` where the shared timestamp would be advanced, so
`ms` is left untouched.  `usize` wrap of the increment is kept explicit. -/
def rtc_callback (s : RtcState) : RtcState × List IOOp :=
  let counter := (s.counter + 1) % 2 ^ 64
  let counter := if counter = 8 then 0 else counter
  ({ s with counter := counter }, reset_trace)

/-- The state transition of one interrupt firing. -/
def rtc_step (s : RtcState) : RtcState := (rtc_callback s).1

/-- The RTC state at handler installation: counter zero, timestamp zero. -/
def rtcState0 : RtcState := ⟨0, 0⟩

/-! ## Module lifecycle (`init_`, `fini`, `rtc::init`, `rtc::fini`)

The externally visible state (clock registry, status registers, handler
binding) is threaded explicitly; success of the two external registration
calls is an environment parameter. -/

/-- Externally visible state acted on by the module lifecycle: the names
registered in the external clock registry, the CMOS status registers A and
B, and whether the interrupt handler is bound. -/
structure KernelState where
  clocks : List String
  status_a : Nat
  status_b : Nat
  handler : Bool

/-- Modelled from the spec: the external clock registry registers one named
source; registration can be rejected (`ok = false`), in which case the
registry is unchanged and the failure propagates. -/
def add_clock_source (ok : Bool) (name : String) (s : KernelState) :
    Option KernelState :=
  if ok then some { s with clocks := name :: s.clocks } else none

/-- Modelled from the spec: the external clock registry unregisters a source
by name. -/
def remove_clock_source (name : String) (s : KernelState) : KernelState :=
  { s with clocks := s.clocks.filter (fun n => n ≠ name) }

/-- `rtc::init` (src/rtc.rs): first set bit `0x40` of status register B
(read-modify-write) and program the rate bits of status register A
(`(prev & 0xF0) | 3`), then register the interrupt callback.  Registration
failure (`register_ok = false`) propagates with no rollback of the register
writes. -/
def rtc_init (register_ok : Bool) (s : KernelState) : KernelState × Bool :=
  let s := { s with status_b := s.status_b ||| 0x40 }
  let s := { s with status_a := (s.status_a &&& 0xF0) ||| 3 }
  if register_ok then ({ s with handler := true }, true) else (s, false)

/-- `init_` (src/mod.rs): create the CMOS clock, add it to the clock
registry (failure propagates), then run `rtc::init`. -/
def init_ (add_ok register_ok : Bool) (s : KernelState) : KernelState × Bool :=
  match add_clock_source add_ok ((CMOSClock.new true).get_name) s with
  | none => (s, false)
  | some s => rtc_init register_ok s

/-- `rtc::fini` (src/rtc.rs): clear bit `0x40` of status register B
(read-modify-write with `prev & !0x40`) and drop the handler binding. -/
def rtc_fini (s : KernelState) : KernelState :=
  let s := { s with status_b := s.status_b &&& 0xbf }
  { s with handler := false }

/-- `fini` (src/mod.rs): `rtc::fini`, then remove the clock source
registered under the name `"CMOS"`. -/
def fini (s : KernelState) : KernelState :=
  remove_clock_source "CMOS" (rtc_fini s)

/-- The kernel state before module load: nothing registered. -/
def kernelState0 : KernelState := ⟨[], 0, 0, false⟩

/-! ## Calendar validity (the domain of the monotonicity claim) -/

/-- Gregorian month lengths, month zero-based: the "calendar bounds" the
monotonicity claim quantifies over. -/
def days_in_month (year month : Nat) : Nat :=
  match month with
  | 1 => if is_leap_year year then 29 else 28
  | 3 | 5 | 8 | 10 => 30
  | _ => 31

/-- A valid calendar date as the claim states it: year at least 1970,
month and day zero-based and within calendar bounds. -/
def valid_date (year month day : Nat) : Prop :=
  1970 ≤ year ∧ month < 12 ∧ day < days_in_month year month

instance (year month day : Nat) : Decidable (valid_date year month day) := by
  unfold valid_date; infer_instance

/-- Advancing a calendar date by one day. -/
def next_day (year month day : Nat) : Nat × Nat × Nat :=
  if day + 1 < days_in_month year month then (year, month, day + 1)
  else if month + 1 < 12 then (year, month + 1, 0)
  else (year + 1, 0, 0)

/-- BCD encoding as the round-trip claim describes it: tens digit in the
high nibble, units digit in the low nibble. -/
def bcd_encode (v : Nat) : Nat := (v / 10) * 16 + v % 10

/-- Raw registers for 2024-01-01 00:00:00 in binary, 24-hour mode
(status register B has both format flags set, century register reads 20). -/
def regs_2024_01_01 : RawTime := ⟨0, 0, 0, 1, 1, 24, 20, 6⟩

/-- The all-zero register snapshot (every register reads `0x00`). -/
def regs_zero : RawTime := ⟨0, 0, 0, 0, 0, 0, 0, 0⟩

/-!
# Theorems

One theorem (plus witness or counterexample where required) per claim,
after the shared helper lemmas.
-/

/-! ## Helper lemmas -/

/-- One callback invocation keeps the tick counter at most 7. -/
theorem rtc_step_counter_le {s : RtcState} (h : s.counter ≤ 7) :
    (rtc_step s).counter ≤ 7 := by
  have h64 : (s.counter + 1) % 2 ^ 64 = s.counter + 1 :=
    Nat.mod_eq_of_lt (by omega)
  simp only [rtc_step, rtc_callback, h64]
  split
  · simp
  · show s.counter + 1 ≤ 7
    omega

/-- Counting leap years over one more year. -/
theorem leap_years_between_succ (y0 y : Nat) (h : y0 ≤ y) :
    leap_years_between y0 (y + 1) =
      leap_years_between y0 y + (if is_leap_year y then 1 else 0) := by
  unfold leap_years_between
  have h1 : y + 1 - y0 = (y - y0) + 1 := by omega
  have h2 : y0 + (y - y0) = y := by omega
  have h3 := @List.range'_concat 1 y0 (y - y0)
  simp only [one_mul] at h3
  rw [h1, h3, h2, List.filter_append, List.length_append]
  simp [List.filter]
  split <;> simp_all

/-- There are at most `y1 - y0` leap years in `[y0, y1)`. -/
theorem leap_years_between_le (y0 y1 : Nat) :
    leap_years_between y0 y1 ≤ y1 - y0 := by
  unfold leap_years_between
  calc ((List.range' y0 (y1 - y0)).filter (fun year => is_leap_year year)).length
      ≤ (List.range' y0 (y1 - y0)).length := List.length_filter_le _ _
    _ = y1 - y0 := List.length_range' _ _ _

/-! ## C1: the 2024-01-01 epoch example -/

/-- C1 (counterexample): on 2024-01-01 the code's day count is 19723, but
`19723 * 86400` is `1704067200`, not the `1704153600` the claim states, so
the claimed conjunction is false. -/
theorem epoch_2024_cex :
    ¬(get_days_since_epoch 2024 0 0 = 19723 ∧
      get_days_since_epoch 2024 0 0 * 86400 + 0 * 3600 + 0 * 60 + 0 = 1704153600) := by
  decide

/-- C1 (amended): for year 2024, zero-based month 0 and day 0 and midnight,
`get_days_since_epoch` returns exactly 19723 and the seconds-since-epoch
computed by `CMOSClock::init` on the matching register snapshot is
`19723 * 86400 = 1704067200`. -/
theorem epoch_2024 :
    get_days_since_epoch 2024 0 0 = 19723 ∧
      get_days_since_epoch 2024 0 0 * 86400 + 0 * 3600 + 0 * 60 + 0 = 1704067200 ∧
      cmosDecode true regs_2024_01_01 = 1704067200 := by
  decide

/-! ## C7: BCD round trip -/

/-- C7: encoding any binary value 0–59 as BCD and applying the decoder's
BCD-to-binary conversion returns the original value. -/
theorem bcd_round_trip (v : Nat) (h : v ≤ 59) :
    bcd_decode (bcd_encode v) = v :=
  (by decide : ∀ x < 60, bcd_decode (bcd_encode x) = x) v (by omega)

/-- C7 witness: the round trip at the concrete value 45. -/
theorem bcd_round_trip_witness :
    45 ≤ 59 ∧ bcd_decode (bcd_encode 45) = 45 :=
  ⟨by decide, bcd_round_trip 45 (by decide)⟩

/-! ## C4: the coalesced tick mode never advances the shared timestamp -/

/-- C4 (code bug): the interrupt callback never advances the shared
fine-grained timestamp — the increment is a `TODO` in the source — so after
any number of firings (in particular after 8 consecutive ones) the shared
millisecond timestamp is unchanged, not advanced by one millisecond. -/
theorem rtc_ticks_never_advance_ms (n : Nat) (s : RtcState) :
    (rtc_step^[n] s).ms = s.ms := by
  induction n generalizing s with
  | zero => rfl
  | succ n ih =>
    rw [Function.iterate_succ_apply]
    rw [ih]
    rfl

/-! ## C9: the tick counter invariant -/

/-- C9: starting from counter 0, after every invocation of the interrupt
callback the stored counter is in `0..=7`, and every invocation's I/O trace
is exactly `reset`'s trace, which selects status register C and reads it. -/
theorem rtc_counter_invariant (n : Nat) :
    (rtc_step^[n] rtcState0).counter ≤ 7 ∧
      (rtc_callback (rtc_step^[n] rtcState0)).2 = reset_trace := by
  refine ⟨?_, rfl⟩
  induction n with
  | zero => decide
  | succ n ih =>
    rw [Function.iterate_succ_apply']
    exact rtc_step_counter_le ih

/-! ## C8: the teardown name mismatch -/

/-- C8 (code bug): the clock source registers under `get_name() = "cmos"`,
but `fini` unregisters the name `"CMOS"`; after a successful `init_`
followed by `fini`, the source registered at startup is still present. -/
theorem teardown_name_mismatch :
    (CMOSClock.new true).get_name = "cmos" ∧
      (CMOSClock.new true).get_name ≠ "CMOS" ∧
      (init_ true true kernelState0).1.clocks = ["cmos"] ∧
      (fini (init_ true true kernelState0).1).clocks = ["cmos"] := by
  refine ⟨rfl, by decide, rfl, ?_⟩
  simp [fini, rtc_fini, remove_clock_source, init_, add_clock_source, rtc_init,
    kernelState0, CMOSClock.get_name, CMOSClock.new]

/-! ## C5: failure during module load leaves partial state -/

/-- C5 (counterexample): starting from a clean kernel state, if the clock
registration succeeds but the interrupt-handler registration fails, `init_`
reports failure, yet the clock source `"cmos"` stays registered and the
device's periodic-interrupt-enable bit (bit 6 of status register B) stays
set — partial state remains, contradicting the claim. -/
theorem init_partial_state_cex :
    (init_ true false kernelState0).2 = false ∧
      (init_ true false kernelState0).1.clocks = ["cmos"] ∧
      (init_ true false kernelState0).1.status_b.testBit 6 = true ∧
      (init_ true false kernelState0).1.handler = false := by
  decide

/-- C5 (amended): if the clock-registry registration fails, `init_` reports
failure and changes nothing; if the interrupt-handler registration fails,
`init_` reports failure but the clock source stays registered and the
device's periodic-interrupt-enable bit stays set (only the handler binding
is absent). -/
theorem init_error_paths (s : KernelState) (register_ok : Bool) :
    init_ false register_ok s = (s, false) ∧
      (init_ true false s).2 = false ∧
      (init_ true false s).1.clocks = "cmos" :: s.clocks ∧
      (init_ true false s).1.status_b.testBit 6 = true ∧
      (init_ true false s).1.handler = s.handler := by
  refine ⟨rfl, rfl, rfl, ?_, rfl⟩
  show ((s.status_b ||| 0x40).testBit 6) = true
  rw [Nat.testBit_or]
  have h : Nat.testBit 0x40 6 = true := by decide
  simp [h]

/-! ## C3: the cache-once contract of the lazy clock source -/

/-- A `get_time` call on a populated cache rescales the cached value and
leaves both the clock and the hardware untouched. -/
theorem get_time_of_some {c : CMOSClock} {ts : Nat} (h : c.timestamp = some ts)
    (scale : TimestampScale) (w : HwWorld) :
    c.get_time scale w =
      (TimestampScale.convert ts TimestampScale.Second scale, c, w) := by
  simp [CMOSClock.get_time, h]

/-- C3: once the cached timestamp is populated, `init` is a no-op, and any
sequence of `get_time` calls, at any scales in any order, returns the single
cached seconds-since-epoch value converted by the linear scale factor,
leaving the clock and the hardware (hence the read count) unchanged — no
second hardware read ever happens. -/
theorem cache_once (c : CMOSClock) (w : HwWorld) (ts : Nat)
    (scales : List TimestampScale) (h : c.timestamp = some ts) :
    c.init w = (c, w) ∧
      (get_time_seq c w scales).1 =
        scales.map (fun scale => TimestampScale.convert ts TimestampScale.Second scale) ∧
      (get_time_seq c w scales).2 = (c, w) := by
  have main : ∀ l : List TimestampScale,
      (get_time_seq c w l).1 =
        l.map (fun scale => TimestampScale.convert ts TimestampScale.Second scale) ∧
      (get_time_seq c w l).2 = (c, w) := by
    intro l
    induction l with
    | nil => simp [get_time_seq]
    | cons scale rest ih =>
      simp only [get_time_seq, get_time_of_some h scale w, List.map]
      exact ⟨by rw [ih.1], ih.2⟩
  have hinit : c.init w = (c, w) := by simp [CMOSClock.init, h]
  exact ⟨hinit, (main scales).1, (main scales).2⟩

/-- C3 witness: a clock caching 42 seconds; `init` is a no-op and querying
seconds then milliseconds returns 42 and 42000 with the state unchanged. -/
theorem cache_once_witness :
    (CMOSClock.mk true (some 42)).timestamp = some 42 ∧
      (CMOSClock.mk true (some 42)).init ⟨fun _ => regs_zero, 0⟩ =
        (CMOSClock.mk true (some 42), ⟨fun _ => regs_zero, 0⟩) ∧
      (get_time_seq (CMOSClock.mk true (some 42)) ⟨fun _ => regs_zero, 0⟩
          [TimestampScale.Second, TimestampScale.Millisecond]).1 = [42, 42000] ∧
      (get_time_seq (CMOSClock.mk true (some 42)) ⟨fun _ => regs_zero, 0⟩
          [TimestampScale.Second, TimestampScale.Millisecond]).2 =
        (CMOSClock.mk true (some 42), ⟨fun _ => regs_zero, 0⟩) := by
  refine ⟨rfl, ?_⟩
  have h := cache_once (CMOSClock.mk true (some 42)) ⟨fun _ => regs_zero, 0⟩ 42
      [TimestampScale.Second, TimestampScale.Millisecond] rfl
  simpa [TimestampScale.convert, TimestampScale.unitsPerSecond] using h

/-! ## C2: day-step monotonicity of `get_days_since_epoch` -/

/-- Stepping from the last day of a month (other than December) to the
first day of the next month never decreases the day count. -/
theorem dse_month_step (y m d : Nat) (hm1 : m + 1 < 12)
    (hd : d + 1 = days_in_month y m) :
    get_days_since_epoch y m d ≤ get_days_since_epoch y (m + 1) 0 := by
  have hm : m < 12 := by omega
  interval_cases m <;>
    cases hl : is_leap_year y <;>
      simp_all [get_days_since_epoch, days_in_month]

/-- Stepping from December 31 to January 1 of the next year decreases the
day count by exactly one. -/
theorem dse_year_step (y : Nat) (hy : 1970 ≤ y) :
    get_days_since_epoch (y + 1) 0 0 + 1 = get_days_since_epoch y 11 30 := by
  simp only [get_days_since_epoch, leap_years_between_succ 1970 y hy]
  cases hl : is_leap_year y <;> simp [hl] <;> omega

/-- C2 (counterexample): December 31, 1970 is a valid date, its successor
day is January 1, 1971, and `get_days_since_epoch` strictly decreases
across that step (366 down to 365), so the day count is not monotonically
non-decreasing as the date advances by one day. -/
theorem dse_monotone_cex :
    valid_date 1970 11 30 ∧ next_day 1970 11 30 = (1971, 0, 0) ∧
      get_days_since_epoch 1971 0 0 < get_days_since_epoch 1970 11 30 := by
  refine ⟨by decide, by decide, by decide⟩

/-- C2 (amended): for every valid calendar date, advancing by one day never
decreases `get_days_since_epoch` as long as the step stays within the same
year; across a December 31 → January 1 year boundary the value decreases by
exactly 1. -/
theorem dse_next_day (y m d : Nat) (h : valid_date y m d) :
    ((next_day y m d).1 = y →
      get_days_since_epoch y m d ≤
        get_days_since_epoch (next_day y m d).1 (next_day y m d).2.1
          (next_day y m d).2.2) ∧
    ((next_day y m d).1 = y + 1 →
      get_days_since_epoch (next_day y m d).1 (next_day y m d).2.1
          (next_day y m d).2.2 + 1 =
        get_days_since_epoch y m d) := by
  obtain ⟨hy, hm, hd⟩ := h
  unfold next_day
  split
  · -- next day within the same month
    rename_i hlt
    constructor
    · intro _
      simp only [get_days_since_epoch]
      omega
    · intro hc
      simp only at hc
      omega
  · split
    · -- first day of the next month, same year
      rename_i hnd hm1
      constructor
      · intro _
        simp only
        exact dse_month_step y m d hm1 (by omega)
      · intro hc
        simp only at hc
        omega
    · -- December 31 → January 1 of the next year
      rename_i hnd hm1
      have hm11 : m = 11 := by omega
      subst hm11
      have hd30 : d = 30 := by
        simp only [days_in_month] at hd hnd
        omega
      subst hd30
      constructor
      · intro hc
        simp only at hc
        omega
      · intro _
        simp only
        exact dse_year_step y hy

/-- C2 witness: the amended monotonicity applied across the leap-day
boundary February 29, 1972 → March 1, 1972. -/
theorem dse_next_day_witness :
    valid_date 1972 1 28 ∧ next_day 1972 1 28 = (1972, 2, 0) ∧
      get_days_since_epoch 1972 1 28 ≤ get_days_since_epoch 1972 2 0 := by
  refine ⟨by decide, by decide, ?_⟩
  have h := (dse_next_day 1972 1 28 (by decide)).1 (by decide)
  have e : next_day 1972 1 28 = (1972, 2, 0) := by decide
  rw [e] at h
  simpa using h

/-! ## Reduction lemmas for wrapping and checked arithmetic -/

/-- Checked subtraction succeeds when no underflow occurs. -/
theorem csub32_eq (a b : Nat) (h : b ≤ a) : csub32 a b = some (a - b) := by
  simp [csub32, h]

/-- Checked addition succeeds when the sum fits in 32 bits. -/
theorem cadd32_eq (a b : Nat) (h : a + b < U32) : cadd32 a b = some (a + b) := by
  simp [cadd32, h]

/-- Checked multiplication succeeds when the product fits in 32 bits. -/
theorem cmul32_eq (a b : Nat) (h : a * b < U32) : cmul32 a b = some (a * b) := by
  simp [cmul32, h]

/-- Checked 64-bit addition succeeds when the sum fits in 64 bits. -/
theorem cadd64_eq (a b : Nat) (h : a + b < 2 ^ 64) : cadd64 a b = some (a + b) := by
  unfold cadd64
  rw [if_pos h]

/-- Wrapping subtraction is plain subtraction when no underflow occurs. -/
theorem wsub32_eq (a b : Nat) (hba : b ≤ a) (ha : a < U32) : wsub32 a b = a - b := by
  unfold wsub32
  have h1 : a + U32 - b = (a - b) + U32 := by omega
  rw [h1, Nat.add_mod_right, Nat.mod_eq_of_lt (by omega)]

/-- Wrapping addition is plain addition when the sum fits in 32 bits. -/
theorem wadd32_eq (a b : Nat) (h : a + b < U32) : wadd32 a b = a + b := by
  unfold wadd32
  exact Nat.mod_eq_of_lt h

/-- Wrapping multiplication is plain multiplication when the product fits. -/
theorem wmul32_eq (a b : Nat) (h : a * b < U32) : wmul32 a b = a * b := by
  unfold wmul32
  exact Nat.mod_eq_of_lt h

/-- The BCD conversion of a byte is at most `15 + 15 * 10 = 165`. -/
theorem bcd_decode_le (v : Nat) (hv : v < 256) : bcd_decode v ≤ 165 := by
  have h15 : v &&& 15 ≤ 15 := Nat.and_le_right
  unfold bcd_decode
  omega

/-- On bytes, the checked BCD conversion never traps. -/
theorem bcd_decode_checked_eq (v : Nat) (hv : v < 256) :
    bcd_decode_checked v = some (bcd_decode v) := by
  have h15 : v &&& 15 ≤ 15 := Nat.and_le_right
  have h1 : v / 16 * 10 < U32 := by unfold U32; omega
  have h2 : (v &&& 15) + v / 16 * 10 < U32 := by unfold U32; omega
  simp [bcd_decode_checked, bcd_decode, cmul32, cadd32, h1, h2]

/-- The hour's BCD conversion of a byte is again a byte. -/
theorem bcdHour_lt (hour : Nat) (_h : hour < 256) : bcdHour hour < 256 := by
  have h15 : hour &&& 15 ≤ 15 := Nat.and_le_right
  have h112 : hour &&& 112 ≤ 112 := Nat.and_le_right
  have hbp : (hour &&& 15) + (hour &&& 112) / 16 * 10 < 2 ^ 8 := by omega
  have hpm : hour &&& 128 < 2 ^ 8 := by
    have : hour &&& 128 ≤ 128 := Nat.and_le_right
    omega
  have := Nat.or_lt_two_pow hbp hpm
  simpa [bcdHour] using this

/-- On bytes, the checked hour BCD conversion never traps. -/
theorem bcdHourChecked_eq (hour : Nat) (_h : hour < 256) :
    bcdHourChecked hour = some (bcdHour hour) := by
  have h15 : hour &&& 15 ≤ 15 := Nat.and_le_right
  have h112 : hour &&& 112 ≤ 112 := Nat.and_le_right
  have h1 : (hour &&& 112) / 16 * 10 < U32 := by unfold U32; omega
  have h2 : (hour &&& 15) + (hour &&& 112) / 16 * 10 < U32 := by unfold U32; omega
  simp [bcdHourChecked, bcdHour, cmul32, cadd32, h1, h2]

/-- The 12-to-24-hour conversion of a byte stays a byte. -/
theorem hour24_lt (status_b hour : Nat) (h : hour < 256) :
    hour24 status_b hour < 256 := by
  have h127 : hour &&& 127 ≤ 127 := Nat.and_le_right
  unfold hour24
  split
  · omega
  · omega

/-- On bytes, the checked 12-to-24-hour conversion never traps. -/
theorem hour24Checked_eq (status_b hour : Nat) (_h : hour < 256) :
    hour24Checked status_b hour = some (hour24 status_b hour) := by
  have h127 : hour &&& 127 ≤ 127 := Nat.and_le_right
  have h1 : (hour &&& 127) + 12 < U32 := by unfold U32; omega
  by_cases hc : status_b &&& FORMAT_24_FLAG = 0 ∧ hour &&& 128 ≠ 0 <;>
    simp [hour24Checked, hour24, hc, cadd32_eq (hour &&& 127) 12 h1]

/-- Bounds on the decoded fields: all sub-day fields and the one-based day
and month are bytes, and the combined year is at most `255 + 255 * 100`. -/
theorem cmosDecodeFields_bounds (cr : Bool) (r : RawTime) (hb : r.Bytes) :
    (cmosDecodeFields cr r).1 < 256 ∧
      (cmosDecodeFields cr r).2.1 < 256 ∧
      (cmosDecodeFields cr r).2.2.1 < 256 ∧
      (cmosDecodeFields cr r).2.2.2.1 < 256 ∧
      (cmosDecodeFields cr r).2.2.2.2.1 < 256 ∧
      (cmosDecodeFields cr r).2.2.2.2.2 ≤ 25755 := by
  obtain ⟨b1, b2, b3, b4, b5, b6, b7, b8⟩ := hb
  have e1 := bcd_decode_le r.second b1
  have e2 := bcd_decode_le r.minute b2
  have e4 := bcd_decode_le r.day b4
  have e5 := bcd_decode_le r.month b5
  have e6 := bcd_decode_le r.year b6
  have e7 := bcd_decode_le r.century b7
  have e3 := bcdHour_lt r.hour b3
  have f1 := hour24_lt r.status_b (bcdHour r.hour) e3
  have f2 := hour24_lt r.status_b r.hour b3
  cases cr <;> by_cases hbcd : r.status_b &&& FORMAT_BCD_FLAG = 0 <;>
    simp [cmosDecodeFields, hbcd] <;>
      refine ⟨by omega, by omega, by omega, by omega, by omega, by omega⟩

set_option maxRecDepth 4000 in
/-- On bytes, the field-normalization stage of the checked decode never
traps and agrees with `cmosDecodeFields`. -/
theorem cmosFieldsChecked_eq (cr : Bool) (r : RawTime) (hb : r.Bytes) :
    cmosFieldsChecked cr r = some (cmosDecodeFields cr r) := by
  obtain ⟨b1, b2, b3, b4, b5, b6, b7, b8⟩ := hb
  have e6 := bcd_decode_le r.year b6
  have e7 := bcd_decode_le r.century b7
  cases cr
  · by_cases hbcd : r.status_b &&& FORMAT_BCD_FLAG = 0 <;>
      simp [cmosFieldsChecked, cmosDecodeFields, hbcd,
        bcd_decode_checked_eq r.second b1, bcd_decode_checked_eq r.minute b2,
        bcdHourChecked_eq r.hour b3, bcd_decode_checked_eq r.day b4,
        bcd_decode_checked_eq r.month b5, bcd_decode_checked_eq r.year b6,
        hour24Checked_eq r.status_b (bcdHour r.hour) (bcdHour_lt r.hour b3),
        hour24Checked_eq r.status_b r.hour b3,
        cmul32_eq 20 100 (by unfold U32; omega),
        cadd32_eq (bcd_decode r.year) 2000 (by unfold U32; omega),
        cadd32_eq r.year 2000 (by unfold U32; omega)]
  · by_cases hbcd : r.status_b &&& FORMAT_BCD_FLAG = 0 <;>
      simp [cmosFieldsChecked, cmosDecodeFields, hbcd,
        bcd_decode_checked_eq r.second b1, bcd_decode_checked_eq r.minute b2,
        bcdHourChecked_eq r.hour b3, bcd_decode_checked_eq r.day b4,
        bcd_decode_checked_eq r.month b5, bcd_decode_checked_eq r.year b6,
        bcd_decode_checked_eq r.century b7,
        hour24Checked_eq r.status_b (bcdHour r.hour) (bcdHour_lt r.hour b3),
        hour24Checked_eq r.status_b r.hour b3,
        cmul32_eq (bcd_decode r.century) 100 (by unfold U32; omega),
        cmul32_eq r.century 100 (by unfold U32; omega),
        cadd32_eq (bcd_decode r.year) (bcd_decode r.century * 100) (by unfold U32; omega),
        cadd32_eq r.year (r.century * 100) (by unfold U32; omega)]

/-- On the in-bounds domain no `u32` operation of the day-count computation
wraps, so the wrapping embedding agrees with the plain one. -/
theorem dse_u32_eq (y m d : Nat) (hy : 1970 ≤ y) (hy2 : y ≤ 25755)
    (hm : m ≤ 254) (hd : d ≤ 254) :
    get_days_since_epoch_u32 y m d = get_days_since_epoch y m d := by
  have hle := leap_years_between_le 1970 y
  have h0 : y - 1970 < U32 := by unfold U32; omega
  have h2 : (y - 1970) * 365 < U32 := by unfold U32; omega
  have h3 : (y - 1970) * 365 + leap_years_between 1970 y < U32 := by unfold U32; omega
  have h4 : m + 1 < U32 := by unfold U32; omega
  have h7 : (m + 1) / 2 * 31 + m / 2 * 30 < U32 := by unfold U32; omega
  have h8 : (m + 1) / 2 * 31 + m / 2 * 30 + 1 < U32 := by unfold U32; omega
  have h31 : (m + 1) / 2 * 31 < U32 := by unfold U32; omega
  have h30 : m / 2 * 30 < U32 := by unfold U32; omega
  have hsub : wsub32 y 1970 = y - 1970 := wsub32_eq y 1970 (by omega) (by unfold U32; omega)
  have h9 : (y - 1970) * 365 + leap_years_between 1970 y +
      ((m + 1) / 2 * 31 + m / 2 * 30) < U32 := by
    unfold U32; omega
  have h10 : (y - 1970) * 365 + leap_years_between 1970 y +
      ((m + 1) / 2 * 31 + m / 2 * 30 + 1) < U32 := by
    unfold U32; omega
  have h11 : (y - 1970) * 365 + leap_years_between 1970 y +
      ((m + 1) / 2 * 31 + m / 2 * 30) + d < U32 := by
    unfold U32; omega
  have h12 : (y - 1970) * 365 + leap_years_between 1970 y +
      ((m + 1) / 2 * 31 + m / 2 * 30 + 1) + d < U32 := by
    unfold U32; omega
  by_cases hc : is_leap_year y ∧ 2 ≤ m <;>
    simp [get_days_since_epoch_u32, get_days_since_epoch, hsub, hc,
      wadd32_eq, wmul32_eq, h0, h2, h3, h4, h7, h8, h31, h30, h9, h10, h11, h12]

/-- On the in-bounds domain no checked operation of the day-count
computation traps. -/
theorem dse_checked_eq (y m d : Nat) (hy : 1970 ≤ y) (hy2 : y ≤ 25755)
    (hm : m ≤ 254) (hd : d ≤ 254) :
    get_days_since_epoch_checked y m d = some (get_days_since_epoch y m d) := by
  have hle := leap_years_between_le 1970 y
  have h2 : (y - 1970) * 365 < U32 := by unfold U32; omega
  have h3 : (y - 1970) * 365 + leap_years_between 1970 y < U32 := by unfold U32; omega
  have h4 : m + 1 < U32 := by unfold U32; omega
  have h31 : (m + 1) / 2 * 31 < U32 := by unfold U32; omega
  have h30 : m / 2 * 30 < U32 := by unfold U32; omega
  have h7 : (m + 1) / 2 * 31 + m / 2 * 30 < U32 := by unfold U32; omega
  have h8 : (m + 1) / 2 * 31 + m / 2 * 30 + 1 < U32 := by unfold U32; omega
  have h9 : (y - 1970) * 365 + leap_years_between 1970 y +
      ((m + 1) / 2 * 31 + m / 2 * 30) < U32 := by
    unfold U32; omega
  have h10 : (y - 1970) * 365 + leap_years_between 1970 y +
      ((m + 1) / 2 * 31 + m / 2 * 30 + 1) < U32 := by
    unfold U32; omega
  have h11 : (y - 1970) * 365 + leap_years_between 1970 y +
      ((m + 1) / 2 * 31 + m / 2 * 30) + d < U32 := by
    unfold U32; omega
  have h12 : (y - 1970) * 365 + leap_years_between 1970 y +
      ((m + 1) / 2 * 31 + m / 2 * 30 + 1) + d < U32 := by
    unfold U32; omega
  by_cases hc : is_leap_year y ∧ 2 ≤ m <;>
    simp [get_days_since_epoch_checked, get_days_since_epoch, hc,
      csub32_eq y 1970 (by omega), cmul32_eq, cadd32_eq,
      h2, h3, h4, h31, h30, h7, h8, h9, h10, h11, h12]

/-! ## C6: totality of the decode arithmetic over the 8-bit domain -/

/-- C6 (counterexample): with every register reading `0x00` (an 8-bit
value), the decode path underflows — the all-zero day register decodes to
day 0 and the `day -= 1` decrement traps under checked arithmetic — so the
decode arithmetic is not total over the full 8-bit register domain. -/
theorem decode_underflow_cex : cmosDecodeChecked false regs_zero = none := by
  decide

/-- C6 (amended, full characterization): on 8-bit registers the decode path
of `CMOSClock::init` runs without any checked-arithmetic trap exactly when
the decoded day and month fields are at least 1, the combined year is at
least 1970, and the day count times 86400 fits in 32 bits; on that
sub-domain the checked decode agrees with the wrapping one, and outside it
a checked operation traps (the result is `none`). -/
theorem decode_checked_total (cr : Bool) (r : RawTime) (hb : r.Bytes) :
    cmosDecodeChecked cr r =
      if 1 ≤ (cmosDecodeFields cr r).2.2.2.1 ∧
          1 ≤ (cmosDecodeFields cr r).2.2.2.2.1 ∧
          1970 ≤ (cmosDecodeFields cr r).2.2.2.2.2 ∧
          get_days_since_epoch (cmosDecodeFields cr r).2.2.2.2.2
            ((cmosDecodeFields cr r).2.2.2.2.1 - 1)
            ((cmosDecodeFields cr r).2.2.2.1 - 1) * 86400 < U32
      then some (cmosDecode cr r)
      else none := by
  have hbounds := cmosDecodeFields_bounds cr r hb
  have hfc := cmosFieldsChecked_eq cr r hb
  rcases hF : cmosDecodeFields cr r with ⟨s, mi, h, d, mo, y⟩
  rw [hF] at hbounds hfc
  simp only at hbounds ⊢
  obtain ⟨hs, hmi, hh, hd, hmo, hy2⟩ := hbounds
  split
  · rename_i hcond
    obtain ⟨hday, hmonth, hyear, hfit⟩ := hcond
    have hdse_c := dse_checked_eq y (mo - 1) (d - 1) hyear hy2 (by omega) (by omega)
    have hdse_w := dse_u32_eq y (mo - 1) (d - 1) hyear hy2 (by omega) (by omega)
    simp [cmosDecodeChecked, cmosDecode, hF, hfc,
      csub32_eq d 1 (by omega), csub32_eq mo 1 (by omega),
      wsub32_eq d 1 (by omega) (by unfold U32; omega),
      wsub32_eq mo 1 (by omega) (by unfold U32; omega),
      hdse_c, hdse_w,
      cmul32_eq (get_days_since_epoch y (mo - 1) (d - 1)) 86400 hfit,
      wmul32_eq (get_days_since_epoch y (mo - 1) (d - 1)) 86400 hfit,
      cmul32_eq h 3600 (by unfold U32; omega),
      cmul32_eq mi 60 (by unfold U32; omega),
      cadd64_eq (get_days_since_epoch y (mo - 1) (d - 1) * 86400) (h * 3600)
        (by unfold U32 at hfit; omega),
      cadd64_eq (get_days_since_epoch y (mo - 1) (d - 1) * 86400 + h * 3600) (mi * 60)
        (by unfold U32 at hfit; omega),
      cadd64_eq (get_days_since_epoch y (mo - 1) (d - 1) * 86400 + h * 3600 + mi * 60) s
        (by unfold U32 at hfit; omega)]
  · rename_i hcond
    by_cases hday : 1 ≤ d
    · by_cases hmonth : 1 ≤ mo
      · by_cases hyear : 1970 ≤ y
        · have hfit : ¬ get_days_since_epoch y (mo - 1) (d - 1) * 86400 < U32 :=
            fun hf => hcond ⟨hday, hmonth, hyear, hf⟩
          have hdse_c := dse_checked_eq y (mo - 1) (d - 1) hyear hy2 (by omega) (by omega)
          simp [cmosDecodeChecked, hfc,
            csub32_eq d 1 hday, csub32_eq mo 1 hmonth, hdse_c, cmul32, hfit]
        · simp [cmosDecodeChecked, hfc, csub32_eq d 1 hday, csub32_eq mo 1 hmonth,
            get_days_since_epoch_checked, csub32, hyear]
      · simp [cmosDecodeChecked, hfc, csub32_eq d 1 hday, csub32, hmonth]
    · simp [cmosDecodeChecked, hfc, csub32, hday]

/-- C6 witness: the characterization applied to the 2024-01-01 snapshot,
on which the domain condition holds and the checked decode succeeds with
the wrapping decode's value. -/
theorem decode_checked_total_witness :
    regs_2024_01_01.Bytes ∧
      cmosDecodeChecked true regs_2024_01_01 =
        (if 1 ≤ (cmosDecodeFields true regs_2024_01_01).2.2.2.1 ∧
            1 ≤ (cmosDecodeFields true regs_2024_01_01).2.2.2.2.1 ∧
            1970 ≤ (cmosDecodeFields true regs_2024_01_01).2.2.2.2.2 ∧
            get_days_since_epoch (cmosDecodeFields true regs_2024_01_01).2.2.2.2.2
              ((cmosDecodeFields true regs_2024_01_01).2.2.2.2.1 - 1)
              ((cmosDecodeFields true regs_2024_01_01).2.2.2.1 - 1) * 86400 < U32
          then some (cmosDecode true regs_2024_01_01)
          else none) ∧
      cmosDecodeChecked true regs_2024_01_01 = some (cmosDecode true regs_2024_01_01) :=
  ⟨by decide, decode_checked_total true regs_2024_01_01 (by decide), by decide⟩

/-! ## C10: the cached timestamp wraps the day product modulo `2^32` -/

/-- C10: on 8-bit registers whose decoded day and month are at least 1 and
whose combined year is at least 1970, the timestamp cached by
`CMOSClock::init` equals `days_since_epoch * 86400` reduced modulo `2^32`
(the multiplication is performed in 32-bit arithmetic before widening)
plus `hour*3600 + minute*60 + second`; it equals the unreduced mathematical
value exactly when `days_since_epoch * 86400 < 2^32`. -/
theorem decode_wraps_mod_u32 (cr : Bool) (r : RawTime) (hb : r.Bytes)
    (hday : 1 ≤ (cmosDecodeFields cr r).2.2.2.1)
    (hmonth : 1 ≤ (cmosDecodeFields cr r).2.2.2.2.1)
    (hyear : 1970 ≤ (cmosDecodeFields cr r).2.2.2.2.2) :
    cmosDecode cr r =
      get_days_since_epoch (cmosDecodeFields cr r).2.2.2.2.2
          ((cmosDecodeFields cr r).2.2.2.2.1 - 1)
          ((cmosDecodeFields cr r).2.2.2.1 - 1) * 86400 % U32 +
        (cmosDecodeFields cr r).2.2.1 * 3600 +
        (cmosDecodeFields cr r).2.1 * 60 + (cmosDecodeFields cr r).1 ∧
    (cmosDecode cr r =
        get_days_since_epoch (cmosDecodeFields cr r).2.2.2.2.2
            ((cmosDecodeFields cr r).2.2.2.2.1 - 1)
            ((cmosDecodeFields cr r).2.2.2.1 - 1) * 86400 +
          (cmosDecodeFields cr r).2.2.1 * 3600 +
          (cmosDecodeFields cr r).2.1 * 60 + (cmosDecodeFields cr r).1 ↔
      get_days_since_epoch (cmosDecodeFields cr r).2.2.2.2.2
          ((cmosDecodeFields cr r).2.2.2.2.1 - 1)
          ((cmosDecodeFields cr r).2.2.2.1 - 1) * 86400 < U32) := by
  have hbounds := cmosDecodeFields_bounds cr r hb
  rcases hF : cmosDecodeFields cr r with ⟨s, mi, h, d, mo, y⟩
  rw [hF] at hbounds hday hmonth hyear
  simp only at hbounds hday hmonth hyear
  obtain ⟨hs, hmi, hh, hd, hmo, hy2⟩ := hbounds
  have hdse_w := dse_u32_eq y (mo - 1) (d - 1) hyear hy2 (by omega) (by omega)
  have e1 : cmosDecode cr r =
      get_days_since_epoch y (mo - 1) (d - 1) * 86400 % U32 +
        h * 3600 + mi * 60 + s := by
    simp [cmosDecode, hF,
      wsub32_eq d 1 (by omega) (by unfold U32; omega),
      wsub32_eq mo 1 (by omega) (by unfold U32; omega),
      hdse_w, wmul32]
  refine ⟨by simpa using e1, ?_⟩
  simp only
  rw [e1]
  constructor
  · intro heq
    have hmlt : get_days_since_epoch y (mo - 1) (d - 1) * 86400 % U32 < U32 :=
      Nat.mod_lt _ (by unfold U32; omega)
    have := Nat.mod_le (get_days_since_epoch y (mo - 1) (d - 1) * 86400) U32
    omega
  · intro hlt
    rw [Nat.mod_eq_of_lt hlt]

/-- C10 witness: on the 2024-01-01 snapshot the cached timestamp is the
wrapped form, and the fit condition holds so it coincides with the
mathematical value. -/
theorem decode_wraps_mod_u32_witness :
    regs_2024_01_01.Bytes ∧
      (cmosDecode true regs_2024_01_01 =
          get_days_since_epoch 2024 0 0 * 86400 % U32 + 0 * 3600 + 0 * 60 + 0 ∧
        (cmosDecode true regs_2024_01_01 =
            get_days_since_epoch 2024 0 0 * 86400 + 0 * 3600 + 0 * 60 + 0 ↔
          get_days_since_epoch 2024 0 0 * 86400 < U32)) :=
  ⟨by decide,
    decode_wraps_mod_u32 true regs_2024_01_01 (by decide) (by decide) (by decide) (by decide)⟩

end CMOS
